import Mathlib

/-!
Shallow embedding of the cv-analysis-server match-scoring pipelines
(`src/services/gemini_analysis.py`, `src/services/database.py`, `src/main.py`).

The external scoring oracle is modelled as the optional raw text it returns
for a given candidate (`none` = the call raised).  Persistence success is a
Boolean parameter.  `json.loads` / `json.dumps` are modelled by a small JSON
value type with an executable decoder and encoder covering the fragment the
server exchanges (objects, arrays, strings, decimal numbers, booleans, null);
numbers are exact rationals rather than IEEE floats.
-/

/-- JSON values as produced by the modelled `json.loads`. -/
inductive Json where
  | null : Json
  | bool (b : Bool) : Json
  | num (q : ℚ) : Json
  | str (s : String) : Json
  | arr (xs : List Json) : Json
  | obj (fields : List (String × Json)) : Json

/-- Opening brace character, written via its code point. -/
def lbrace : Char := Char.ofNat 123

/-- Closing brace character, written via its code point. -/
def rbrace : Char := Char.ofNat 125

/-- Backtick character, written via its code point. -/
def backquote : Char := Char.ofNat 96

/-- Whitespace characters recognised by Python `str.strip()` (ASCII fragment). -/
def pyWs (c : Char) : Bool :=
  c = ' ' || c = '\t' || c = '\n' || c = '\x0b' || c = '\x0c' || c = '\r'

/-- Drop characters satisfying `p` from both ends of a character list. -/
def stripWhile (p : Char → Bool) (l : List Char) : List Char :=
  ((l.dropWhile p).reverse.dropWhile p).reverse

/-- Models Python `str.strip()` (whitespace from both ends). -/
def pyStrip (s : String) : String :=
  String.mk (stripWhile pyWs s.data)

/-- Models Python `str.strip(c)` for a single character `c`. -/
def pyStripChar (c : Char) (s : String) : String :=
  String.mk (stripWhile (fun x => x = c) s.data)

/-- Models the greedy regex span search on a character list: the match of
the DOTALL pattern "open-brace, any characters greedily, close-brace", i.e.
the span from the first opening brace to the last closing brace, provided
the latter comes strictly after the former. -/
def braceSpan (l : List Char) : Option (List Char) :=
  let a := l.dropWhile (fun c => c ≠ lbrace)
  let t := (a.reverse.dropWhile (fun c => c ≠ rbrace)).reverse
  if t.isEmpty then none else some t

/-- Whitespace characters skipped by the JSON grammar. -/
def jsonWs (c : Char) : Bool :=
  c = ' ' || c = '\t' || c = '\n' || c = '\r'

/-- Digits 0-9. -/
def isDigit (c : Char) : Bool := '0' ≤ c && c ≤ '9'

/-- Numeric value of a digit character. -/
def digitVal (c : Char) : ℕ := c.toNat - '0'.toNat

/-- Parse a non-empty run of digits, returning its value, its length and the rest. -/
def parseDigits : List Char → Option (ℕ × ℕ × List Char)
  | [] => none
  | c :: cs =>
    if isDigit c then
      let rec go (acc len : ℕ) : List Char → (ℕ × ℕ × List Char)
        | [] => (acc, len, [])
        | d :: ds =>
          if isDigit d then go (acc * 10 + digitVal d) (len + 1) ds
          else (acc, len, d :: ds)
      some (go (digitVal c) 1 cs)
    else none

/-- Parse the exponent suffix of a JSON number: optional sign, digits. -/
def parseExpDigits (l : List Char) : Option (Bool × ℕ × List Char) :=
  let (eneg, l1) := match l with
    | '-' :: rest => (true, rest)
    | '+' :: rest => (false, rest)
    | _ => (false, l)
  match parseDigits l1 with
  | none => none
  | some (e, _, l2) => some (eneg, e, l2)

/-- Parse a JSON number (optional minus, integer part without leading zeros,
optional fraction, optional exponent) into an exact rational.  The value is
assembled with `mkRat` over integer arithmetic, so concrete parses reduce
inside the kernel. -/
def parseNum (l : List Char) : Option (ℚ × List Char) :=
  let (neg, l1) := match l with
    | '-' :: rest => (true, rest)
    | _ => (false, l)
  match parseDigits l1 with
  | none => none
  | some (ip, iplen, l2) =>
    if 1 < iplen && (l1.headD ' ') = '0' then none else
    let fracPart : Option (ℕ × ℕ × List Char) := match l2 with
      | '.' :: rest =>
        match parseDigits rest with
        | some (fp, fplen, l3) => some (fp, fplen, l3)
        | none => none
      | _ => some (0, 0, l2)
    match fracPart with
    | none => none
    | some (fp, fplen, l3) =>
      let expPart : Option (Bool × ℕ × List Char) := match l3 with
        | 'e' :: rest => parseExpDigits rest
        | 'E' :: rest => parseExpDigits rest
        | _ => some (false, 0, l3)
      match expPart with
      | none => none
      | some (eneg, e, l4) =>
        let mant : ℤ := ((ip * 10 ^ fplen + fp : ℕ) : ℤ)
        let mant := if neg then -mant else mant
        let q : ℚ := if eneg then mkRat mant (10 ^ (fplen + e))
          else mkRat (mant * 10 ^ e) (10 ^ fplen)
        some (q, l4)

/-- Parse the body of a JSON string after the opening quote, handling the
simple escape sequences; fails on raw control characters, on an unterminated
string and on unsupported escapes, as the strict Python decoder does. -/
def parseStrBody : ℕ → List Char → Option (List Char × List Char)
  | 0, _ => none
  | _, [] => none
  | fuel + 1, c :: cs =>
    if c = '"' then some ([], cs)
    else if c = '\\' then
      match cs with
      | [] => none
      | e :: cs' =>
        let esc : Option Char :=
          if e = '"' then some '"'
          else if e = '\\' then some '\\'
          else if e = '/' then some '/'
          else if e = 'n' then some '\n'
          else if e = 't' then some '\t'
          else if e = 'r' then some '\r'
          else if e = 'b' then some '\x08'
          else if e = 'f' then some '\x0c'
          else none
        match esc with
        | none => none
        | some ch =>
          match parseStrBody fuel cs' with
          | none => none
          | some (body, rest) => some (ch :: body, rest)
    else if c.toNat < 32 then none
    else
      match parseStrBody fuel cs with
      | none => none
      | some (body, rest) => some (c :: body, rest)

mutual

/-- Parse one JSON value (fuel-indexed recursive descent). -/
def parseValue : ℕ → List Char → Option (Json × List Char)
  | 0, _ => none
  | fuel + 1, l =>
    match l.dropWhile jsonWs with
    | [] => none
    | c :: cs =>
      if c = lbrace then
        match (c :: cs).tail.dropWhile jsonWs with
        | d :: ds =>
          if d = rbrace then some (.obj [], ds)
          else parseMembers fuel (d :: ds) []
        | [] => none
      else if c = '[' then
        match cs.dropWhile jsonWs with
        | d :: ds =>
          if d = ']' then some (.arr [], ds)
          else parseElems fuel (d :: ds) []
        | [] => none
      else if c = '"' then
        match parseStrBody (cs.length + 1) cs with
        | none => none
        | some (body, rest) => some (.str (String.mk body), rest)
      else if c = 't' then
        match c :: cs with
        | 't' :: 'r' :: 'u' :: 'e' :: rest => some (.bool true, rest)
        | _ => none
      else if c = 'f' then
        match c :: cs with
        | 'f' :: 'a' :: 'l' :: 's' :: 'e' :: rest => some (.bool false, rest)
        | _ => none
      else if c = 'n' then
        match c :: cs with
        | 'n' :: 'u' :: 'l' :: 'l' :: rest => some (.null, rest)
        | _ => none
      else
        match parseNum (c :: cs) with
        | none => none
        | some (q, rest) => some (.num q, rest)

/-- Parse the members of a JSON object after its first non-brace character. -/
def parseMembers : ℕ → List Char → List (String × Json) →
    Option (Json × List Char)
  | 0, _, _ => none
  | fuel + 1, l, acc =>
    match l.dropWhile jsonWs with
    | '"' :: cs =>
      match parseStrBody (cs.length + 1) cs with
      | none => none
      | some (key, rest) =>
        match rest.dropWhile jsonWs with
        | ':' :: rest' =>
          match parseValue fuel rest' with
          | none => none
          | some (v, rest'') =>
            let acc' := acc ++ [(String.mk key, v)]
            match rest''.dropWhile jsonWs with
            | ',' :: rest''' => parseMembers fuel rest''' acc'
            | d :: ds => if d = rbrace then some (.obj acc', ds) else none
            | [] => none
        | _ => none
    | _ => none

/-- Parse the elements of a JSON array after its first non-bracket character. -/
def parseElems : ℕ → List Char → List Json → Option (Json × List Char)
  | 0, _, _ => none
  | fuel + 1, l, acc =>
    match parseValue fuel l with
    | none => none
    | some (v, rest) =>
      let acc' := acc ++ [v]
      match rest.dropWhile jsonWs with
      | ',' :: rest' => parseElems fuel rest' acc'
      | ']' :: rest' => some (.arr acc', rest')
      | _ => none

end

/-- Models Python `json.loads`: decode one JSON document, requiring the whole
input to be consumed up to trailing whitespace. -/
def jsonLoads (s : String) : Option Json :=
  match parseValue (2 * s.data.length + 2) s.data with
  | none => none
  | some (v, rest) => if (rest.dropWhile jsonWs).isEmpty then some v else none

/-- Models Python `dict.get` on an object built from decoded members:
later duplicate keys overwrite earlier ones. -/
def objGet (fields : List (String × Json)) (k : String) : Option Json :=
  fields.foldl (fun acc p => if p.1 = k then some p.2 else acc) none

/-- Models Python `float(x)` on the values the pipelines feed it: numbers
pass through, booleans become 0/1, numeric strings are parsed with the
decimal grammar; anything else raises (returns `none`). -/
def pyFloat : Json → Option ℚ
  | .num q => some q
  | .bool b => some (if b then 1 else 0)
  | .str s =>
    match parseNum (stripWhile pyWs s.data) with
    | some (q, []) => some q
    | _ => none
  | _ => none

/-- Models a Python `x >= threshold` comparison where `x` came straight from
JSON without a `float()` conversion: numbers and booleans compare, anything
else raises `TypeError` (returns `none`). -/
def pyNumOfJson : Json → Option ℚ
  | .num q => some q
  | .bool b => some (if b then 1 else 0)
  | _ => none

/-- Render an exact rational in decimal with the given fuel of fractional
digits (enough for every value the pipelines produce); used by the modelled
`json.dumps`. -/
def ratToDecimal (q : ℚ) : String :=
  let sign := if q < 0 then "-" else ""
  let n := q.num.natAbs
  let d := q.den
  let ip := n / d
  let rec go (fuel rem : ℕ) : List Char :=
    match fuel with
    | 0 => []
    | fuel' + 1 =>
      if rem = 0 then []
      else
        let rem10 := rem * 10
        Char.ofNat (rem10 / d + '0'.toNat) :: go fuel' (rem10 % d)
  let fracDigits := go 40 (n % d)
  if fracDigits.isEmpty then sign ++ toString ip
  else sign ++ toString ip ++ "." ++ String.mk fracDigits

/-- Escape a string for the modelled `json.dumps`. -/
def jsonEscape (s : String) : String :=
  String.mk (s.data.foldr (fun c acc =>
    if c = '"' then '\\' :: '"' :: acc
    else if c = '\\' then '\\' :: '\\' :: acc
    else if c = '\n' then '\\' :: 'n' :: acc
    else if c = '\t' then '\\' :: 't' :: acc
    else if c = '\r' then '\\' :: 'r' :: acc
    else c :: acc) [])

mutual

/-- Models Python `json.dumps` with its default separators. -/
def jsonDumps : Json → String
  | .null => "null"
  | .bool true => "true"
  | .bool false => "false"
  | .num q => ratToDecimal q
  | .str s => "\"" ++ jsonEscape s ++ "\""
  | .arr xs => "[" ++ dumpsElems xs ++ "]"
  | .obj fs => "\x7b" ++ dumpsFields fs ++ "\x7d"

/-- Comma-separated rendering of array elements. -/
def dumpsElems : List Json → String
  | [] => ""
  | [x] => jsonDumps x
  | x :: y :: xs => jsonDumps x ++ ", " ++ dumpsElems (y :: xs)

/-- Comma-separated rendering of object members. -/
def dumpsFields : List (String × Json) → String
  | [] => ""
  | [(k, v)] => "\"" ++ jsonEscape k ++ "\": " ++ jsonDumps v
  | (k, v) :: f :: fs =>
    "\"" ++ jsonEscape k ++ "\": " ++ jsonDumps v ++ ", " ++ dumpsFields (f :: fs)

end

/-- Job records as loaded from the relational store (`get_all_jobs` /
`get_relative_jobs` project id, name, detail; the other columns never reach
the scoring pipeline). -/
structure Job where
  id : ℕ
  name : String
  detail : String
deriving DecidableEq

/-- Failure modes of the response-handling code in `analyze_single_job` and
`filter_candidates`: a `ValueError` when no brace span exists, a JSON decode
error when the span does not decode.  Both are caught by the surrounding
`except` handler. -/
inductive ParseError where
  | noJsonFound : ParseError
  | malformedJson : ParseError
deriving DecidableEq

/-- Models the cleaning step `raw.strip().strip(backtick)` shared by
`analyze_single_job` and `filter_candidates`. -/
def cleanedContent (raw : String) : String :=
  pyStripChar backquote (pyStrip raw)

/-- Models the span-and-decode step of `analyze_single_job` on an already
cleaned character list: greedy brace-span search, then `json.loads` of the
span. -/
def parseCleaned (l : List Char) : Except ParseError Json :=
  match braceSpan l with
  | none => .error .noJsonFound
  | some span =>
    match jsonLoads (String.mk span) with
    | none => .error .malformedJson
    | some v => .ok v

/-- Models the response parsing of `analyze_single_job` (lines 96-103):
strip whitespace and backticks, locate the greedy brace span, decode it. -/
def parseResponse (raw : String) : Except ParseError Json :=
  parseCleaned (cleanedContent raw).data

/-- Match record returned by `analyze_single_job` on a qualifying score
(the dict built at lines 110-115). -/
structure MatchRec where
  job_id : ℕ
  match_score : ℚ
  explanation : Json
  created_at : String

/-- Models `analyze_single_job` (gemini_analysis.py lines 61-119).
`resp` is the oracle's raw text (`none` = the `chain.invoke` call raised);
`saveOk` says whether the `save_cv_job_matches` write succeeds (when it
raises, the surrounding `except` handler catches, logs and returns `None`);
`now` stands for `datetime.now().isoformat()`.  Every failure path of the
source — oracle error, missing span, decode error, non-dict document,
non-numeric score, persistence failure — and every sub-threshold score
returns `none`. -/
def analyze_single_job (saveOk : Bool) (now : String) (job : Job)
    (resp : Option String) : Option MatchRec :=
  match resp with
  | none => none
  | some raw =>
    match parseResponse raw with
    | .error _ => none
    | .ok parsed =>
      match parsed with
      | .obj fs =>
        match pyFloat ((objGet fs "score").getD (.num 0)) with
        | none => none
        | some score =>
          let explanation := (objGet fs "explanation").getD (.str "")
          if mkRat 5 10 ≤ score then
            if saveOk then some ⟨job.id, score, explanation, now⟩ else none
          else none
      | _ => none

/-- Stable descending sort by a rational key: the meaning of Python
`sorted(l, key=k, reverse=True)` (and of `sorted(l, key=lambda x: -k x)`),
whose sort is stable. -/
def pySortDescBy {α : Type} (key : α → ℚ) (l : List α) : List α :=
  List.insertionSort (fun a b => key b ≤ key a) l

/-- Models the aggregation step of `analyze_cv_with_jobs` (line 142):
a stable sort of the collected match dicts by score, descending. -/
def cvRank (rs : List MatchRec) : List MatchRec :=
  pySortDescBy (·.match_score) rs

/-- Render one collected match dict for the modelled `json.dumps`. -/
def matchRecToJson (m : MatchRec) : Json :=
  .obj [("job_id", .num m.job_id), ("match_score", .num m.match_score),
        ("explanation", m.explanation), ("created_at", .str m.created_at)]

/-- Serialized form of the ranked CV-analysis result. -/
def dumpsMatchList (rs : List MatchRec) : String :=
  jsonDumps (.arr (rs.map matchRecToJson))

/-- Cache write effect: key, payload, optional TTL in seconds
(`none` = `set` without expiry). -/
structure CacheWrite where
  key : String
  payload : String
  ttl : Option ℕ
deriving DecidableEq

/-- Environment of one `analyze_cv_with_jobs` run: the current cache
contents, the active jobs returned by `get_all_jobs`, the oracle response
per job id, whether the per-match persistence write succeeds per job id,
and the timestamp. -/
structure AnalyzeEnv where
  cache : String → Option String
  jobs : List Job
  oracle : ℕ → Option String
  saveOk : ℕ → Bool
  now : String

/-- Return value of `analyze_cv_with_jobs`: on a cache hit the decoded
cached document (`json.loads` of the stored string), on a miss the freshly
ranked list. -/
inductive AnalyzeRet where
  | cached (v : Option Json) : AnalyzeRet
  | fresh (rs : List MatchRec) : AnalyzeRet

/-- Observable result of one `analyze_cv_with_jobs` run: the returned value,
the cache writes and the `save_nli_analysis` snapshot writes performed. -/
structure AnalyzeOut where
  ret : AnalyzeRet
  cacheWrites : List CacheWrite
  snapshots : List (ℕ × String)

/-- Models `analyze_cv_with_jobs` (gemini_analysis.py lines 122-147).
The thread pool submits one `analyze_single_job` task per job; `as_completed`
collects each task's result and keeps only truthy ones (`if result:`), which
`filterMap` captures; the collection order is abstracted by the order of
`env.jobs`.  On a miss the ranked list is snapshotted via `save_nli_analysis`
and written to both the analysis key and the recommendation alias key with a
1800 second TTL. -/
def analyze_cv_with_jobs (env : AnalyzeEnv) (cv_id : ℕ) : AnalyzeOut :=
  let cache_key := "nli_analysis:cv:" ++ toString cv_id
  let cache_key2 := "recommend:cv:" ++ toString cv_id
  match env.cache cache_key with
  | some s => ⟨.cached (jsonLoads s), [], []⟩
  | none =>
    let results := env.jobs.filterMap
      (fun j => analyze_single_job (env.saveOk j.id) env.now j (env.oracle j.id))
    let sorted_results := cvRank results
    let payload := dumpsMatchList sorted_results
    ⟨.fresh sorted_results,
     [⟨cache_key, payload, some 1800⟩, ⟨cache_key2, payload, some 1800⟩],
     [(cv_id, payload)]⟩

/-- Entry of the filter pipeline's result (the dict built at lines 212-216). -/
structure FilterEntry where
  cv_id : ℕ
  match_score : ℚ
  reason : Json

/-- Models the per-row response handling of `filter_candidates`
(lines 194-208): oracle failure, the empty-response check, cleaning, span
search, decoding, the `.get` defaults and the bare `match_score >= 0.6`
comparison that raises `TypeError` on non-numeric values.  Returns the
score/reason pair exactly when the row reaches the threshold test. -/
def rowParsed (resp : Option String) : Option (ℚ × Json) :=
  match resp with
  | none => none
  | some raw =>
    let cleaned := cleanedContent raw
    if cleaned.data.isEmpty then none
    else
      match parseCleaned cleaned.data with
      | .error _ => none
      | .ok (.obj fs) =>
        match pyNumOfJson ((objGet fs "match_score").getD (.num 0)) with
        | none => none
        | some q => some (q, (objGet fs "reason").getD (.str ""))
      | .ok _ => none

/-- Insert or overwrite a key in an insertion-ordered dictionary, as a
Python `dict` assignment does. -/
def dictUpsert (k : ℕ) (v : FilterEntry) :
    List (ℕ × FilterEntry) → List (ℕ × FilterEntry)
  | [] => [(k, v)]
  | (k', v') :: rest =>
    if k' = k then (k, v) :: rest else (k', v') :: dictUpsert k v rest

/-- Lookup in the insertion-ordered dictionary. -/
def dictFind (d : List (ℕ × FilterEntry)) (k : ℕ) : Option FilterEntry :=
  match d.find? (fun p => p.1 = k) with
  | some p => some p.2
  | none => none

/-- One iteration of the `filter_candidates` loop (lines 192-219) over the
`best_scores` dictionary. -/
def filterStep (best : List (ℕ × FilterEntry)) (row : ℕ × String × Option String) :
    List (ℕ × FilterEntry) :=
  let cv_id := row.1
  match rowParsed row.2.2 with
  | none => best
  | some (q, reason) =>
    if mkRat 6 10 ≤ q then
      match dictFind best cv_id with
      | none => dictUpsert cv_id ⟨cv_id, q, reason⟩ best
      | some old =>
        if old.match_score < q then dictUpsert cv_id ⟨cv_id, q, reason⟩ best
        else best
    else best

/-- Models `filter_candidates` (gemini_analysis.py lines 156-223).  A row is
`(cv_id, cv_text, oracle response)`; the returned list is the
`matched_candidates` value: the dictionary's values (insertion order) sorted
stably by score descending. -/
def filter_candidates (rows : List (ℕ × String × Option String)) :
    List FilterEntry :=
  let best_scores := rows.foldl filterStep []
  pySortDescBy (·.match_score) (best_scores.map (·.2))

/-- Result entry of the job-similarity pipeline (the dict at lines 271-275). -/
structure RelRec where
  jobId : ℕ
  score : ℚ
  explanation : Json

/-- Banker's rounding of the fraction `a / d` (with `d` positive) to an
integer, as Python `round` does on exact halves; phrased over integer
arithmetic so that concrete evaluations reduce inside the kernel. -/
def roundHalfEven (a : ℤ) (d : ℕ) : ℤ :=
  let n := Int.fdiv a d
  let r := a - n * d
  if (d : ℤ) < 2 * r then n + 1
  else if 2 * r < (d : ℤ) then n
  else if n % 2 = 0 then n else n + 1

/-- Models Python `round(score, 3)` on the exact-rational score model:
round `score * 1000` half-to-even and divide by 1000 again. -/
def round3 (q : ℚ) : ℚ :=
  mkRat (roundHalfEven (q.num * 1000) q.den) 1000

/-- Models the response handling inside `related_jobs.analyze_job`
(lines 261-266): strip whitespace and backticks, strip a leading "json"
language tag, then `json.loads` the whole remainder — there is no brace-span
search on this path. -/
def relParse (raw : String) : Option Json :=
  let cleaned := (cleanedContent raw).data
  let cleaned := match cleaned with
    | 'j' :: 's' :: 'o' :: 'n' :: rest => stripWhile pyWs rest
    | _ => cleaned
  jsonLoads (String.mk cleaned)

/-- Models `analyze_job` inside `related_jobs` (lines 254-278): parse the
oracle response, read the score via `float(parsed.get("score", 0))`, and on a
score of at least 0.4 return the result dict with the score rounded to three
decimals; every failure path returns `None`. -/
def analyze_job (other : Job) (resp : Option String) : Option RelRec :=
  match resp with
  | none => none
  | some raw =>
    match relParse raw with
    | none => none
    | some (.obj fs) =>
      match pyFloat ((objGet fs "score").getD (.num 0)) with
      | none => none
      | some score =>
        let explanation := (objGet fs "explanation").getD (.str "")
        if mkRat 4 10 ≤ score then some ⟨other.id, round3 score, explanation⟩
        else none
    | some _ => none

/-- Render one job-similarity dict for the modelled `json.dumps`. -/
def relRecToJson (m : RelRec) : Json :=
  .obj [("jobId", .num m.jobId), ("score", .num m.score),
        ("explanation", m.explanation)]

/-- Serialized form of the ranked job-similarity result. -/
def dumpsRelList (rs : List RelRec) : String :=
  jsonDumps (.arr (rs.map relRecToJson))

/-- Environment of one `related_jobs` run: cache contents, the other active
jobs from `get_relative_jobs`, and the oracle response per compared job id. -/
structure RelatedEnv where
  cache : String → Option String
  others : List Job
  oracle : ℕ → Option String

/-- Return value of `related_jobs`: decoded cached document on a hit,
freshly ranked list on a miss. -/
inductive RelatedRet where
  | cached (v : Option Json) : RelatedRet
  | fresh (rs : List RelRec) : RelatedRet

/-- Observable result of one `related_jobs` run. -/
structure RelatedOut where
  ret : RelatedRet
  cacheWrites : List CacheWrite

/-- Models `related_jobs` (gemini_analysis.py lines 228-291): cache check,
fan-out of `analyze_job` over the other jobs with only truthy results
collected, stable descending sort by score, and a single `setex` write with
a 10800 second TTL. -/
def related_jobs (env : RelatedEnv) (job_id : ℕ) : RelatedOut :=
  let cache_key := "related_jobs:" ++ toString job_id
  match env.cache cache_key with
  | some s => ⟨.cached (jsonLoads s), []⟩
  | none =>
    let results := env.others.filterMap (fun j => analyze_job j (env.oracle j.id))
    let sorted := pySortDescBy (·.score) results
    ⟨.fresh sorted, [⟨cache_key, dumpsRelList sorted, some 10800⟩]⟩

/-- Row of the `cv_job_matches` table (database.py `save_cv_job_matches`
inserts these columns). -/
structure MatchRow where
  cv_id : ℕ
  job_id : ℕ
  cv_text : String
  match_score : ℚ
  explanation : String
deriving DecidableEq

/-- Entry of the `recommend_jobs_for_cv` result list (database.py line 148). -/
structure RecJobEntry where
  job_id : ℕ
  score : ℚ
  explanation : String
deriving DecidableEq

/-- Entry of the `recommend_cvs_for_job` result list (database.py line 171). -/
structure RecCvEntry where
  cv_id : ℕ
  score : ℚ
  explanation : String
deriving DecidableEq

/-- Models the SQL query of `recommend_jobs_for_cv` (lines 133-142): rows of
`cv_job_matches` with the given `cv_id`, ordered by `match_score` descending,
limited to 10, projected to `(job_id, match_score, explanation)`. -/
def queryJobsForCv (table : List MatchRow) (cv_id : ℕ) : List RecJobEntry :=
  ((pySortDescBy (·.match_score) (table.filter (fun r => r.cv_id == cv_id))).take 10).map
    (fun r => ⟨r.job_id, r.match_score, r.explanation⟩)

/-- Models the SQL query of `recommend_cvs_for_job` (lines 156-165). -/
def queryCvsForJob (table : List MatchRow) (job_id : ℕ) : List RecCvEntry :=
  ((pySortDescBy (·.match_score) (table.filter (fun r => r.job_id == job_id))).take 10).map
    (fun r => ⟨r.cv_id, r.match_score, r.explanation⟩)

/-- Render one recommended-job dict for the modelled `json.dumps`. -/
def recJobToJson (e : RecJobEntry) : Json :=
  .obj [("job_id", .num e.job_id), ("score", .num e.score),
        ("explanation", .str e.explanation)]

/-- Serialized recommended-jobs list. -/
def dumpsRecJobs (es : List RecJobEntry) : String :=
  jsonDumps (.arr (es.map recJobToJson))

/-- Render one recommended-CV dict for the modelled `json.dumps`. -/
def recCvToJson (e : RecCvEntry) : Json :=
  .obj [("cv_id", .num e.cv_id), ("score", .num e.score),
        ("explanation", .str e.explanation)]

/-- Serialized recommended-CVs list. -/
def dumpsRecCvs (es : List RecCvEntry) : String :=
  jsonDumps (.arr (es.map recCvToJson))

/-- Models `recommend_jobs_for_cv` (database.py lines 126-150).  `red` is the
cache state.  On a hit the stored bytes are decoded to a string and returned
as-is with no writes; on a miss the query result is serialized with
`json.dumps`, written to the key with `set` and no TTL, and the serialized
string is returned. -/
def recommend_jobs_for_cv (table : List MatchRow) (red : String → Option String)
    (cv_id : ℕ) : String × List CacheWrite :=
  let cache_key := "recommend:cv:" ++ toString cv_id
  match red cache_key with
  | some v => (v, [])
  | none =>
    let result := dumpsRecJobs (queryJobsForCv table cv_id)
    (result, [⟨cache_key, result, none⟩])

/-- Models `recommend_cvs_for_job` (database.py lines 153-172).  The cache
state `red` is passed to express that the source body never touches the
cache: the output is independent of `red` and the write list is empty. -/
def recommend_cvs_for_job (table : List MatchRow) (_red : String → Option String)
    (job_id : ℕ) : String × List CacheWrite :=
  (dumpsRecCvs (queryCvsForJob table job_id), [])

/-- Response shape of `GET /api/recommend/jobs-for-cv/cv_id` (main.py
lines 21-24): the `recommended_jobs` field holds the string returned by
`recommend_jobs_for_cv`, not a structured array. -/
structure JobRecResponse where
  cv_id : ℕ
  recommended_jobs : String
deriving DecidableEq

/-- Response shape of `GET /api/recommend/cvs-for-job/job_id` (main.py
lines 26-29). -/
structure CvRecResponse where
  job_id : ℕ
  recommended_cvs : String
deriving DecidableEq

/-- Models the jobs-for-cv endpoint handler (main.py lines 21-24). -/
def get_job_recommendations (table : List MatchRow)
    (red : String → Option String) (cv_id : ℕ) :
    JobRecResponse × List CacheWrite :=
  let r := recommend_jobs_for_cv table red cv_id
  (⟨cv_id, r.1⟩, r.2)

/-- Models the cvs-for-job endpoint handler (main.py lines 26-29; the source
reuses the name `get_job_recommendations` for this second handler). -/
def get_cv_recommendations (table : List MatchRow)
    (red : String → Option String) (job_id : ℕ) :
    CvRecResponse × List CacheWrite :=
  let r := recommend_cvs_for_job table red job_id
  (⟨job_id, r.1⟩, r.2)

/-- Fixture job used by concrete evaluations. -/
def job1 : Job := ⟨1, "dev", "backend role"⟩

/-- Fixture job sharing the identity of `job1` but with different detail. -/
def job1b : Job := ⟨1, "dev2", "frontend role"⟩

/-- Oracle response whose brace span decodes to a score of 0.8. -/
def okRaw : String := "\x7b\"score\": 0.8, \"explanation\": \"good\"\x7d"

/-- Oracle response decoding to an object with no score field. -/
def noScoreRaw : String := "\x7b\"explanation\":\"x\"\x7d"

/-- Environment with a single job whose oracle call raises, an empty cache
and successful persistence. -/
def envOneFailing : AnalyzeEnv :=
  ⟨fun _ => none, [job1], fun _ => none, fun _ => true, "t0"⟩

/-- Environment with a single job whose oracle response parses to score 0.8,
an empty cache and successful persistence. -/
def envOneOk : AnalyzeEnv :=
  ⟨fun _ => none, [job1], fun _ => some okRaw, fun _ => true, "t0"⟩

/-- Job-similarity environment with an empty cache and a failing oracle. -/
def relEnvEmpty : RelatedEnv :=
  ⟨fun _ => none, [job1], fun _ => none⟩

/-- Collected match with candidate identity 2 and score one half. -/
def recA : MatchRec := ⟨2, mkRat 5 10, .str "", "t0"⟩

/-- Collected match with candidate identity 1 and score one half. -/
def recB : MatchRec := ⟨1, mkRat 5 10, .str "", "t0"⟩

/-- Oracle response with score exactly 0.5. -/
def raw05 : String := "\x7b\"score\": 0.5\x7d"

/-- Oracle response with score 0.499, just below the CV-vs-job threshold. -/
def raw0499 : String := "\x7b\"score\": 0.499\x7d"

/-- Filter-oracle response with match_score exactly 0.6. -/
def rawF06 : String := "\x7b\"match_score\": 0.6, \"reason\": \"ok\"\x7d"

/-- Filter-oracle response with match_score 0.59, just below threshold. -/
def rawF059 : String := "\x7b\"match_score\": 0.59\x7d"

/-- Similarity-oracle response with score exactly 0.4. -/
def rawR04 : String := "\x7b\"score\": 0.4\x7d"

/-- Similarity-oracle response with score 0.399, just below threshold. -/
def rawR0399 : String := "\x7b\"score\": 0.399\x7d"

/-- Oracle response wrapped in a backtick code fence with a json tag. -/
def fencedRaw : String := "```json\n\x7b\"score\": 0.7\x7d\n```"

/-- Oracle response with prose around a valid JSON object. -/
def proseRaw : String := "Sure! \x7b\"score\": 0.9\x7d"

/-- Fixture `cv_job_matches` table with two CVs and three matches. -/
def table1 : List MatchRow :=
  [⟨1, 2, "cv text", 0.9, "e1"⟩, ⟨1, 3, "cv text", 0.7, "e2"⟩,
   ⟨2, 2, "other", 0.8, "e3"⟩]

/-! Helper lemmas about the stable descending sort, the cleaning functions
and the brace-span search. -/

/-- Output of the stable descending sort is a permutation of its input. -/
theorem pySortDescBy_perm {α : Type} (key : α → ℚ) (l : List α) :
    (pySortDescBy key l).Perm l :=
  List.perm_insertionSort _ l

/-- Output of the stable descending sort is sorted non-increasingly by key. -/
theorem pySortDescBy_sorted {α : Type} (key : α → ℚ) (l : List α) :
    (pySortDescBy key l).Sorted (fun a b => key b ≤ key a) := by
  haveI : IsTotal α (fun a b => key b ≤ key a) :=
    ⟨fun a b => le_total (key b) (key a)⟩
  haveI : IsTrans α (fun a b => key b ≤ key a) :=
    ⟨fun _ _ _ h1 h2 => le_trans h2 h1⟩
  exact List.sorted_insertionSort _ l

/-- Inserting into a list and then filtering by an exact key value either
prepends the inserted element (when its key matches) or leaves the filtered
list unchanged: the elements skipped by `orderedInsert` all have strictly
greater keys. -/
theorem filter_orderedInsert {α : Type} (key : α → ℚ) (q : ℚ) (a : α) :
    ∀ l : List α,
      (List.orderedInsert (fun x y => key y ≤ key x) a l).filter
          (fun x => decide (key x = q))
        = if key a = q then
            a :: l.filter (fun x => decide (key x = q))
          else l.filter (fun x => decide (key x = q))
  | [] => by
    simp only [List.orderedInsert, List.filter]
    by_cases h : key a = q <;> simp [h]
  | y :: ys => by
    simp only [List.orderedInsert]
    by_cases hr : key y ≤ key a
    · rw [if_pos hr]
      by_cases h : key a = q <;> simp [List.filter, h]
    · rw [if_neg hr]
      have hgt : key a < key y := lt_of_not_le hr
      have ih := filter_orderedInsert key q a ys
      by_cases h : key a = q
      · have hy : ¬ (key y = q) := by
          intro hy
          rw [h] at hgt
          rw [hy] at hgt
          exact lt_irrefl q hgt
        simp [List.filter, h, hy, ih]
      · by_cases hy : key y = q <;> simp [List.filter, h, hy, ih]

/-- The stable descending sort preserves the relative order of equal-key
elements: filtering by any exact key value commutes with the sort. -/
theorem pySortDescBy_stable {α : Type} (key : α → ℚ) (q : ℚ) :
    ∀ l : List α,
      (pySortDescBy key l).filter (fun x => decide (key x = q))
        = l.filter (fun x => decide (key x = q))
  | [] => rfl
  | a :: l => by
    have ih := pySortDescBy_stable key q l
    simp only [pySortDescBy, List.insertionSort] at ih ⊢
    rw [filter_orderedInsert key q a (List.insertionSort _ l)]
    by_cases h : key a = q <;> simp [h, List.filter, ih]

/-- Dropping while a predicate holds skips a prefix on which it holds
everywhere. -/
theorem dropWhile_append_all {p : Char → Bool} :
    ∀ {l1 : List Char}, (∀ c ∈ l1, p c = true) →
      ∀ l2 : List Char, (l1 ++ l2).dropWhile p = l2.dropWhile p
  | [], _, _ => rfl
  | c :: cs, h, l2 => by
    simp only [List.cons_append, List.dropWhile]
    rw [h c (List.mem_cons_self c cs)]
    exact dropWhile_append_all (fun d hd => h d (List.mem_cons_of_mem c hd)) l2

/-- Greedy span search on braceless prose, a brace-delimited span, then more
braceless prose returns exactly the span. -/
theorem braceSpan_sandwich (p m t : List Char)
    (hp : ∀ c ∈ p, c ≠ lbrace) (ht : ∀ c ∈ t, c ≠ rbrace) :
    braceSpan (p ++ (lbrace :: (m ++ [rbrace])) ++ t)
      = some (lbrace :: (m ++ [rbrace])) := by
  have hp' : ∀ c ∈ p, (fun c => decide (c ≠ lbrace)) c = true := by
    intro c hc
    simpa using hp c hc
  have ht' : ∀ c ∈ t.reverse, (fun c => decide (c ≠ rbrace)) c = true := by
    intro c hc
    simpa using ht c (List.mem_reverse.mp hc)
  simp only [braceSpan]
  rw [List.append_assoc, dropWhile_append_all hp']
  have h1 : List.dropWhile (fun c => decide (c ≠ lbrace))
      ((lbrace :: (m ++ [rbrace])) ++ t) = (lbrace :: (m ++ [rbrace])) ++ t := by
    simp [List.dropWhile]
  rw [h1]
  have h2 : (((lbrace :: (m ++ [rbrace])) ++ t).reverse)
      = t.reverse ++ (rbrace :: (m.reverse ++ [lbrace])) := by
    simp
  rw [h2, dropWhile_append_all ht']
  have h3 : List.dropWhile (fun c => decide (c ≠ rbrace))
      (rbrace :: (m.reverse ++ [lbrace])) = rbrace :: (m.reverse ++ [lbrace]) := by
    simp [List.dropWhile]
  rw [h3]
  simp

/-- Threshold constant of the CV-vs-job pipeline equals 0.5. -/
theorem mkRat_half : mkRat 5 10 = (0.5 : ℚ) := by
  norm_num [Rat.mkRat_eq_div]

/-- Threshold constant of the filter pipeline equals 0.6. -/
theorem mkRat_sixTenths : mkRat 6 10 = (0.6 : ℚ) := by
  norm_num [Rat.mkRat_eq_div]

/-- Threshold constant of the job-similarity pipeline equals 0.4. -/
theorem mkRat_fourTenths : mkRat 4 10 = (0.4 : ℚ) := by
  norm_num [Rat.mkRat_eq_div]

/-- C1 (amended): on a cache miss, `analyze_cv_with_jobs` submits exactly one
`analyze_single_job` task per candidate job (N futures for N candidates), but
the collection loop keeps only truthy results, so the returned ranked list is
the descending sort of the per-job Matches only — rejected and failed pairs
return `None` and are dropped, leaving at most N (not exactly N) entries. -/
theorem C1_fanout_collects_only_matches (env : AnalyzeEnv) (cv_id : ℕ)
    (h : env.cache ("nli_analysis:cv:" ++ toString cv_id) = none) :
    (env.jobs.map
        (fun j => analyze_single_job (env.saveOk j.id) env.now j (env.oracle j.id))).length
      = env.jobs.length
    ∧ (analyze_cv_with_jobs env cv_id).ret
        = .fresh (cvRank (env.jobs.filterMap
            (fun j => analyze_single_job (env.saveOk j.id) env.now j (env.oracle j.id))))
    ∧ (∀ rs, (analyze_cv_with_jobs env cv_id).ret = .fresh rs →
        rs.length ≤ env.jobs.length) := by
  have hret : (analyze_cv_with_jobs env cv_id).ret
      = .fresh (cvRank (env.jobs.filterMap
          (fun j => analyze_single_job (env.saveOk j.id) env.now j (env.oracle j.id)))) := by
    simp only [analyze_cv_with_jobs, h]
  refine ⟨List.length_map _ _, hret, ?_⟩
  intro rs hrs
  rw [hret] at hrs
  have hinj : rs = cvRank (env.jobs.filterMap
      (fun j => analyze_single_job (env.saveOk j.id) env.now j (env.oracle j.id))) := by
    cases hrs
    rfl
  rw [hinj]
  calc (cvRank _).length
      = (env.jobs.filterMap _).length := (pySortDescBy_perm _ _).length_eq
    _ ≤ env.jobs.length := List.length_filterMap_le _ _

/-- C1 witness: the theorem applied to a one-job environment whose oracle
response parses to score 0.8. -/
theorem C1_fanout_collects_only_matches_witness :
    (envOneOk.jobs.map
        (fun j => analyze_single_job (envOneOk.saveOk j.id) envOneOk.now j (envOneOk.oracle j.id))).length
      = envOneOk.jobs.length
    ∧ (analyze_cv_with_jobs envOneOk 7).ret
        = .fresh (cvRank (envOneOk.jobs.filterMap
            (fun j => analyze_single_job (envOneOk.saveOk j.id) envOneOk.now j (envOneOk.oracle j.id))))
    ∧ (∀ rs, (analyze_cv_with_jobs envOneOk 7).ret = .fresh rs →
        rs.length ≤ envOneOk.jobs.length) :=
  C1_fanout_collects_only_matches envOneOk 7 rfl

/-- C1 counterexample: one candidate is submitted (N = 1) but its oracle call
fails, and the collected result is empty — the Failed pair is silently
dropped rather than returned as an outcome, so the run does not return
exactly N outcomes. -/
theorem C1_counterexample :
    envOneFailing.jobs.length = 1
    ∧ (analyze_cv_with_jobs envOneFailing 7).ret = .fresh [] :=
  ⟨rfl, rfl⟩

/-- C2 (amended): when the parsed score reaches the 0.5 threshold,
`analyze_single_job` returns the match dict only if the
`save_cv_job_matches` write succeeds; when the write raises, the exception is
caught by the surrounding handler (which logs it) and the function returns
`None` — the match is NOT returned to the caller. -/
theorem C2_persistence_failure_drops_match (now : String) (job : Job)
    (raw : String) (fs : List (String × Json)) (q : ℚ)
    (hp : parseResponse raw = .ok (.obj fs))
    (hq : pyFloat ((objGet fs "score").getD (.num 0)) = some q)
    (hge : (0.5 : ℚ) ≤ q) :
    analyze_single_job true now job (some raw)
      = some ⟨job.id, q, (objGet fs "explanation").getD (.str ""), now⟩
    ∧ analyze_single_job false now job (some raw) = none := by
  constructor <;> simp only [analyze_single_job, hp, hq] <;>
    rw [mkRat_half, if_pos hge] <;> simp

/-- C2 witness: the theorem applied to the score-0.8 response. -/
theorem C2_persistence_failure_drops_match_witness :
    analyze_single_job true "t0" job1 (some okRaw)
      = some ⟨job1.id, mkRat 8 10, Json.str "good", "t0"⟩
    ∧ analyze_single_job false "t0" job1 (some okRaw) = none := by
  have h := C2_persistence_failure_drops_match "t0" job1 okRaw
    [("score", Json.num (mkRat 8 10)), ("explanation", Json.str "good")]
    (mkRat 8 10) ?hp ?hq ?hge
  case hp => rfl
  case hq => rfl
  case hge => rw [mkRat_half.symm]; decide
  exact h

/-- C2 counterexample: the oracle response parses to score 0.8, at or above
the threshold, yet with a failing persistence write the evaluator returns
`None` instead of the Match the claim promises. -/
theorem C2_counterexample :
    parseResponse okRaw
      = .ok (.obj [("score", .num (mkRat 8 10)), ("explanation", .str "good")])
    ∧ analyze_single_job false "t0" job1 (some okRaw) = none :=
  ⟨rfl, rfl⟩

/-- C3 (amended): when the decoded object has no score field, the parse
succeeds and `parsed.get("score", 0)` defaults the score to 0 — no error is
raised, and the pair is then rejected by the threshold test; the error paths
that do exist are the `ValueError` when no brace span is found and the JSON
decode error when the span does not decode. -/
theorem C3_missing_score_defaults_to_zero :
    (∀ (raw : String) (fs : List (String × Json)),
       parseResponse raw = .ok (.obj fs) → objGet fs "score" = none →
       pyFloat ((objGet fs "score").getD (.num 0)) = some 0
       ∧ ∀ (saveOk : Bool) (now : String) (job : Job),
           analyze_single_job saveOk now job (some raw) = none)
    ∧ parseResponse "no json here" = .error .noJsonFound
    ∧ parseResponse "\x7bbad\x7d" = .error .malformedJson := by
  refine ⟨?_, rfl, rfl⟩
  intro raw fs hp hnone
  have hq : pyFloat ((objGet fs "score").getD (.num 0)) = some 0 := by
    rw [hnone]
    rfl
  refine ⟨hq, ?_⟩
  intro saveOk now job
  simp only [analyze_single_job, hp, hq]
  rw [mkRat_half, if_neg (by norm_num)]

/-- C3 witness: the theorem's first conjunct applied to the score-free
response. -/
theorem C3_missing_score_defaults_to_zero_witness :
    pyFloat ((objGet [("explanation", Json.str "x")] "score").getD (.num 0)) = some 0
    ∧ analyze_single_job true "t0" job1 (some noScoreRaw) = none := by
  have h := C3_missing_score_defaults_to_zero.1 noScoreRaw
    [("explanation", Json.str "x")] rfl rfl
  exact ⟨h.1, h.2 true "t0" job1⟩

/-- C3 counterexample: on an extracted object with no score field the parse
chain of `analyze_single_job` succeeds (the claim demands a MissingScore
failure; the modelled error type has no such case because the source raises
nothing here and defaults the score instead). -/
theorem C3_counterexample :
    parseResponse noScoreRaw = .ok (.obj [("explanation", Json.str "x")]) :=
  rfl

/-- C4 (amended): the ranked output of the CV-analysis aggregation is sorted
non-increasingly by score and is a permutation of the collected outcomes, and
the sort is stable: entries with equal scores keep the order in which they
were collected (the completion order of the futures), not an order by
candidate identity. -/
theorem C4_ranking_sorted_and_stable (rs : List MatchRec) :
    ((cvRank rs).Sorted (fun a b => b.match_score ≤ a.match_score))
    ∧ (cvRank rs).Perm rs
    ∧ ∀ q : ℚ, (cvRank rs).filter (fun x => decide (x.match_score = q))
        = rs.filter (fun x => decide (x.match_score = q)) :=
  ⟨pySortDescBy_sorted _ rs, pySortDescBy_perm _ rs,
   fun q => pySortDescBy_stable _ q rs⟩

/-- C4 counterexample: two collected matches with equal scores and candidate
identities 2 then 1 are ranked in collection order — identity 2 first — not
with the smaller candidate identity first as the claim requires. -/
theorem C4_counterexample :
    recA.match_score = recB.match_score
    ∧ recA.job_id = 2 ∧ recB.job_id = 1
    ∧ (cvRank [recA, recB]).map (fun m => m.job_id) = [2, 1] :=
  ⟨rfl, rfl, rfl, rfl⟩

set_option maxHeartbeats 1000000 in
/-- C5: each pipeline's threshold test is inclusive — a parsed score is kept
exactly when it is at least the pipeline's threshold: 0.5 for CV-vs-job
(`analyze_single_job`), 0.6 for filter-vs-CV (`filter_candidates`), 0.4 for
job-vs-job (`analyze_job`); any score strictly below is not included. -/
theorem C5_thresholds_inclusive (now : String) (job other : Job)
    (raw1 : String) (fs1 : List (String × Json)) (q1 : ℚ)
    (hp1 : parseResponse raw1 = .ok (.obj fs1))
    (hq1 : pyFloat ((objGet fs1 "score").getD (.num 0)) = some q1)
    (cv : ℕ) (txt raw2 : String) (q2 : ℚ) (r2 : Json)
    (hp2 : rowParsed (some raw2) = some (q2, r2))
    (raw3 : String) (fs3 : List (String × Json)) (q3 : ℚ)
    (hp3 : relParse raw3 = some (.obj fs3))
    (hq3 : pyFloat ((objGet fs3 "score").getD (.num 0)) = some q3) :
    ((analyze_single_job true now job (some raw1)).isSome ↔ (0.5 : ℚ) ≤ q1)
    ∧ (filter_candidates [(cv, txt, some raw2)] ≠ [] ↔ (0.6 : ℚ) ≤ q2)
    ∧ ((analyze_job other (some raw3)).isSome ↔ (0.4 : ℚ) ≤ q3) := by
  refine ⟨?_, ?_, ?_⟩
  · simp only [analyze_single_job, hp1, hq1, mkRat_half]
    by_cases h : (0.5 : ℚ) ≤ q1 <;> simp [h]
  · simp only [filter_candidates, List.foldl, filterStep, hp2, mkRat_sixTenths]
    by_cases h : (0.6 : ℚ) ≤ q2
    · rw [if_pos h]
      simp [dictFind, dictUpsert, pySortDescBy, List.insertionSort, h]
    · rw [if_neg h]
      simp [pySortDescBy, List.insertionSort, h]
  · simp only [analyze_job, hp3, hq3, mkRat_fourTenths]
    by_cases h : (0.4 : ℚ) ≤ q3 <;> simp [h]

/-- C5 witness: the theorem applied at responses scoring exactly each
threshold and just below each threshold. -/
theorem C5_thresholds_inclusive_witness :
    ((analyze_single_job true "t0" job1 (some raw05)).isSome
        ↔ (0.5 : ℚ) ≤ mkRat 5 10)
    ∧ (filter_candidates [(3, "txt", some rawF06)] ≠ []
        ↔ (0.6 : ℚ) ≤ mkRat 6 10)
    ∧ ((analyze_job job1 (some rawR04)).isSome ↔ (0.4 : ℚ) ≤ mkRat 4 10)
    ∧ ((analyze_single_job true "t0" job1 (some raw0499)).isSome
        ↔ (0.5 : ℚ) ≤ mkRat 499 1000)
    ∧ (filter_candidates [(3, "txt", some rawF059)] ≠ []
        ↔ (0.6 : ℚ) ≤ mkRat 59 100)
    ∧ ((analyze_job job1 (some rawR0399)).isSome
        ↔ (0.4 : ℚ) ≤ mkRat 399 1000) := by
  have h1 := C5_thresholds_inclusive "t0" job1 job1 raw05
    [("score", Json.num (mkRat 5 10))] (mkRat 5 10) rfl rfl
    3 "txt" rawF06 (mkRat 6 10) (Json.str "ok") rfl
    rawR04 [("score", Json.num (mkRat 4 10))] (mkRat 4 10) rfl rfl
  have h2 := C5_thresholds_inclusive "t0" job1 job1 raw0499
    [("score", Json.num (mkRat 499 1000))] (mkRat 499 1000) rfl rfl
    3 "txt" rawF059 (mkRat 59 100) (Json.str "") rfl
    rawR0399 [("score", Json.num (mkRat 399 1000))] (mkRat 399 1000) rfl rfl
  exact ⟨h1.1, h1.2.1, h1.2.2, h2.1, h2.2.1, h2.2.2⟩

/-- C6 (amended): the CV-vs-job and filter parsers strip whitespace and
backticks and then take the greedy first-brace-to-last-brace span, so prose
around the object is tolerated there (first conjunct, and the fenced
response also parses even though these parsers never strip the "json" tag);
the job-similarity parser strips whitespace, backticks and a leading "json"
tag but decodes the whole remainder, so it handles fenced input yet fails on
surrounding prose. -/
theorem C6_span_search_not_in_every_pipeline (p m t : List Char) (v : Json)
    (hp : ∀ c ∈ p, c ≠ lbrace) (ht : ∀ c ∈ t, c ≠ rbrace)
    (hdec : jsonLoads (String.mk (lbrace :: (m ++ [rbrace]))) = some v) :
    parseCleaned (p ++ (lbrace :: (m ++ [rbrace])) ++ t) = .ok v
    ∧ parseResponse fencedRaw = .ok (.obj [("score", .num (mkRat 7 10))])
    ∧ relParse fencedRaw = some (.obj [("score", .num (mkRat 7 10))])
    ∧ relParse proseRaw = none := by
  refine ⟨?_, rfl, rfl, rfl⟩
  simp only [parseCleaned, braceSpan_sandwich p m t hp ht, hdec]

/-- C6 witness: the theorem applied with concrete prose around a concrete
object. -/
theorem C6_span_search_not_in_every_pipeline_witness :
    parseCleaned ("Note: ".data
        ++ (lbrace :: ("\"score\": 1".data ++ [rbrace])) ++ " end".data)
      = .ok (.obj [("score", .num (mkRat 1 1))])
    ∧ parseResponse fencedRaw = .ok (.obj [("score", .num (mkRat 7 10))])
    ∧ relParse fencedRaw = some (.obj [("score", .num (mkRat 7 10))])
    ∧ relParse proseRaw = none :=
  C6_span_search_not_in_every_pipeline "Note: ".data "\"score\": 1".data
    " end".data (.obj [("score", .num (mkRat 1 1))])
    (by decide) (by decide) rfl

/-- C6 counterexample: a response with prose around a valid JSON object is
parsed fine by the CV-vs-job parser but makes the job-similarity pipeline's
parse fail, so its pair is dropped — the claimed prose tolerance does not
hold in every pipeline instantiation. -/
theorem C6_counterexample :
    analyze_job job1 (some proseRaw) = none
    ∧ relParse proseRaw = none
    ∧ parseResponse proseRaw = .ok (.obj [("score", .num (mkRat 9 10))]) :=
  ⟨rfl, rfl, rfl⟩

/-- C7: on a cache miss the CV-analysis pipeline performs exactly two cache
writes — the analysis key and the recommendation alias key — with one and
the same payload and a 1800 second TTL each, while the job-similarity
pipeline performs exactly one write with a 10800 second TTL. -/
theorem C7_dual_cache_write (env : AnalyzeEnv) (cv_id : ℕ)
    (renv : RelatedEnv) (job_id : ℕ)
    (h1 : env.cache ("nli_analysis:cv:" ++ toString cv_id) = none)
    (h2 : renv.cache ("related_jobs:" ++ toString job_id) = none) :
    (∃ p, (analyze_cv_with_jobs env cv_id).cacheWrites
        = [⟨"nli_analysis:cv:" ++ toString cv_id, p, some 1800⟩,
           ⟨"recommend:cv:" ++ toString cv_id, p, some 1800⟩])
    ∧ (∃ p2, (related_jobs renv job_id).cacheWrites
        = [⟨"related_jobs:" ++ toString job_id, p2, some 10800⟩]) := by
  constructor
  · refine ⟨dumpsMatchList (cvRank (env.jobs.filterMap
      (fun j => analyze_single_job (env.saveOk j.id) env.now j (env.oracle j.id)))), ?_⟩
    simp only [analyze_cv_with_jobs, h1]
  · refine ⟨dumpsRelList (pySortDescBy (·.score) (renv.others.filterMap
      (fun j => analyze_job j (renv.oracle j.id)))), ?_⟩
    simp only [related_jobs, h2]

/-- C7 witness: the theorem applied to concrete empty-cache environments. -/
theorem C7_dual_cache_write_witness :
    (∃ p, (analyze_cv_with_jobs envOneOk 7).cacheWrites
        = [⟨"nli_analysis:cv:" ++ toString 7, p, some 1800⟩,
           ⟨"recommend:cv:" ++ toString 7, p, some 1800⟩])
    ∧ (∃ p2, (related_jobs relEnvEmpty 9).cacheWrites
        = [⟨"related_jobs:" ++ toString 9, p2, some 10800⟩]) :=
  C7_dual_cache_write envOneOk 7 relEnvEmpty 9 rfl rfl

/-- C8: the two recommend read paths are asymmetric.  `recommend_jobs_for_cv`
returns the cached string verbatim on a hit; on a miss it serves the match
table filtered by the subject CV, ordered by score descending, limited to 10,
and writes the serialized result to its cache key with no TTL.
`recommend_cvs_for_job` runs the same bounded descending query for the
reverse direction but its output is independent of the cache state and it
performs no cache write. -/
theorem C8_recommend_read_paths (table : List MatchRow)
    (red : String → Option String) (cv_id job_id : ℕ) :
    (∀ v, red ("recommend:cv:" ++ toString cv_id) = some v →
       recommend_jobs_for_cv table red cv_id = (v, []))
    ∧ (red ("recommend:cv:" ++ toString cv_id) = none →
       recommend_jobs_for_cv table red cv_id
         = (dumpsRecJobs (queryJobsForCv table cv_id),
            [⟨"recommend:cv:" ++ toString cv_id,
              dumpsRecJobs (queryJobsForCv table cv_id), none⟩]))
    ∧ (queryJobsForCv table cv_id).length ≤ 10
    ∧ ((queryJobsForCv table cv_id).map (fun e => e.score)).Sorted
        (fun a b => b ≤ a)
    ∧ (∀ e ∈ queryJobsForCv table cv_id, ∃ r ∈ table,
        r.cv_id = cv_id ∧ e = ⟨r.job_id, r.match_score, r.explanation⟩)
    ∧ (∀ red', recommend_cvs_for_job table red job_id
        = recommend_cvs_for_job table red' job_id)
    ∧ (recommend_cvs_for_job table red job_id).2 = [] := by
  have hs := pySortDescBy_sorted (fun r : MatchRow => r.match_score)
    (table.filter (fun r => r.cv_id == cv_id))
  refine ⟨?_, ?_, ?_, ?_, ?_, fun _ => rfl, rfl⟩
  · intro v hv
    simp only [recommend_jobs_for_cv, hv]
  · intro hv
    simp only [recommend_jobs_for_cv, hv]
  · unfold queryJobsForCv
    rw [List.length_map]
    exact List.length_take_le _ _
  · unfold queryJobsForCv
    rw [List.map_map]
    exact List.pairwise_map.mpr
      (List.Pairwise.sublist (List.take_sublist _ _) hs)
  · intro e he
    unfold queryJobsForCv at he
    rcases List.mem_map.mp he with ⟨r, hr, rfl⟩
    have hr2 : r ∈ pySortDescBy (fun r : MatchRow => r.match_score)
        (table.filter (fun r => r.cv_id == cv_id)) :=
      List.mem_of_mem_take hr
    have hr3 := (pySortDescBy_perm (fun r : MatchRow => r.match_score) _).mem_iff.mp hr2
    rcases List.mem_filter.mp hr3 with ⟨htab, hcv⟩
    exact ⟨r, htab, by simpa using hcv, rfl⟩

/-- C8 witness: the theorem applied to a concrete table, a missing cache key
and concrete subject identities. -/
theorem C8_recommend_read_paths_witness :
    recommend_jobs_for_cv table1 (fun _ => none) 1
      = (dumpsRecJobs (queryJobsForCv table1 1),
         [⟨"recommend:cv:" ++ toString 1, dumpsRecJobs (queryJobsForCv table1 1), none⟩])
    ∧ (queryJobsForCv table1 1).length ≤ 10
    ∧ (recommend_cvs_for_job table1 (fun _ => none) 2).2 = [] := by
  have h := C8_recommend_read_paths table1 (fun _ => none) 1 2
  exact ⟨h.2.1 rfl, h.2.2.1, h.2.2.2.2.2.2⟩

/-- C10: both recommend operations hand a JSON-serialized string to the HTTP
layer: `recommend_jobs_for_cv` returns the decoded cached string on a hit
and the `json.dumps` of the query rows on a miss, `recommend_cvs_for_job`
always returns the `json.dumps` of its rows, and the endpoint handlers embed
that string — not a structured array — under the `recommended_jobs` /
`recommended_cvs` field (both fields are of string type in this model, as in
the source). -/
theorem C10_endpoints_embed_serialized_strings (table : List MatchRow)
    (red : String → Option String) (cv_id job_id : ℕ) :
    (∀ v, red ("recommend:cv:" ++ toString cv_id) = some v →
       (get_job_recommendations table red cv_id).1 = ⟨cv_id, v⟩)
    ∧ (red ("recommend:cv:" ++ toString cv_id) = none →
       (get_job_recommendations table red cv_id).1
         = ⟨cv_id, dumpsRecJobs (queryJobsForCv table cv_id)⟩)
    ∧ (get_cv_recommendations table red job_id).1
        = ⟨job_id, dumpsRecCvs (queryCvsForJob table job_id)⟩ := by
  refine ⟨?_, ?_, rfl⟩
  · intro v hv
    simp only [get_job_recommendations, recommend_jobs_for_cv, hv]
  · intro hv
    simp only [get_job_recommendations, recommend_jobs_for_cv, hv]

/-- C10 witness: the theorem applied on both the hit path and the miss path
with concrete inputs. -/
theorem C10_endpoints_embed_serialized_strings_witness :
    (get_job_recommendations table1 (fun _ => some "cached") 1).1 = ⟨1, "cached"⟩
    ∧ (get_job_recommendations table1 (fun _ => none) 1).1
        = ⟨1, dumpsRecJobs (queryJobsForCv table1 1)⟩
    ∧ (get_cv_recommendations table1 (fun _ => none) 2).1
        = ⟨2, dumpsRecCvs (queryCvsForJob table1 2)⟩ := by
  have ha := C10_endpoints_embed_serialized_strings table1 (fun _ => some "cached") 1 2
  have hb := C10_endpoints_embed_serialized_strings table1 (fun _ => none) 1 2
  exact ⟨ha.1 "cached" rfl, hb.2.1 rfl, hb.2.2⟩

/-- Membership in the keys of an upserted dictionary. -/
theorem dictUpsert_mem_keys (k : ℕ) (v : FilterEntry) (x : ℕ) :
    ∀ d : List (ℕ × FilterEntry),
      (x ∈ (dictUpsert k v d).map Prod.fst ↔ x = k ∨ x ∈ d.map Prod.fst)
  | [] => by simp [dictUpsert]
  | (k', v') :: rest => by
    by_cases h : k' = k
    · subst h
      simp [dictUpsert]
    · simp only [dictUpsert, if_neg h, List.map_cons, List.mem_cons,
        dictUpsert_mem_keys k v x rest]
      tauto

/-- Upserting preserves distinctness of the dictionary keys. -/
theorem dictUpsert_keys_nodup (k : ℕ) (v : FilterEntry) :
    ∀ d : List (ℕ × FilterEntry),
      (d.map Prod.fst).Nodup → ((dictUpsert k v d).map Prod.fst).Nodup
  | [] => by simp [dictUpsert]
  | (k', v') :: rest => by
    intro h
    simp only [List.map_cons, List.nodup_cons] at h
    rcases h with ⟨hk', hrest⟩
    by_cases hkk : k' = k
    · rw [show dictUpsert k v ((k', v') :: rest) = (k, v) :: rest by
        simp [dictUpsert, hkk]]
      simp only [List.map_cons, List.nodup_cons]
      exact ⟨hkk ▸ hk', hrest⟩
    · simp only [dictUpsert, if_neg hkk, List.map_cons, List.nodup_cons]
      refine ⟨?_, dictUpsert_keys_nodup k v rest hrest⟩
      intro hmem
      rcases (dictUpsert_mem_keys k v k' rest).mp hmem with heq | hmem'
      · exact hkk heq
      · exact hk' hmem'

/-- Upserting a value consistent with its key preserves the invariant that
every stored entry's `cv_id` equals its dictionary key. -/
theorem dictUpsert_consistent (k : ℕ) (v : FilterEntry) (hv : v.cv_id = k) :
    ∀ d : List (ℕ × FilterEntry), (∀ p ∈ d, p.2.cv_id = p.1) →
      ∀ p ∈ dictUpsert k v d, p.2.cv_id = p.1
  | [] => by
    intro _ p hp
    simp only [dictUpsert, List.mem_singleton] at hp
    subst hp
    exact hv
  | (k', v') :: rest => by
    intro h p hp
    by_cases hkk : k' = k
    · rw [show dictUpsert k v ((k', v') :: rest) = (k, v) :: rest by
        simp [dictUpsert, hkk]] at hp
      rcases List.mem_cons.mp hp with hp | hp
      · subst hp
        exact hv
      · exact h p (List.mem_cons_of_mem _ hp)
    · simp only [dictUpsert, if_neg hkk] at hp
      rcases List.mem_cons.mp hp with hp | hp
      · subst hp
        exact h (k', v') (List.mem_cons_self _ _)
      · exact dictUpsert_consistent k v hv rest
          (fun p hp => h p (List.mem_cons_of_mem _ hp)) p hp

/-- Lookup after upserting the same key returns the new value. -/
theorem dictFind_upsert_self (k : ℕ) (v : FilterEntry) :
    ∀ d : List (ℕ × FilterEntry), dictFind (dictUpsert k v d) k = some v
  | [] => by simp [dictUpsert, dictFind, List.find?]
  | (k', v') :: rest => by
    by_cases hkk : k' = k
    · subst hkk
      simp [dictUpsert, dictFind, List.find?]
    · simp only [dictUpsert, if_neg hkk]
      have := dictFind_upsert_self k v rest
      simpa [dictFind, List.find?, hkk] using this

/-- Lookup at a different key is unchanged by an upsert. -/
theorem dictFind_upsert_other (k k' : ℕ) (v : FilterEntry) (hne : k ≠ k') :
    ∀ d : List (ℕ × FilterEntry),
      dictFind (dictUpsert k v d) k' = dictFind d k'
  | [] => by
    simp [dictUpsert, dictFind, List.find?, hne]
  | (k'', v'') :: rest => by
    by_cases hkk : k'' = k
    · subst hkk
      simp [dictUpsert, dictFind, List.find?, hne]
    · simp only [dictUpsert, if_neg hkk]
      have := dictFind_upsert_other k k' v hne rest
      by_cases h2 : k'' = k'
      · simp [dictFind, List.find?, h2]
      · simpa [dictFind, List.find?, h2] using this

/-- Case equation: a row whose parse chain fails leaves the dictionary
unchanged. -/
theorem filterStep_eq_none (best : List (ℕ × FilterEntry))
    (row : ℕ × String × Option String) (h : rowParsed row.2.2 = none) :
    filterStep best row = best := by
  simp only [filterStep, h]

/-- Case equation: a qualifying row for a key not yet present inserts its
entry. -/
theorem filterStep_eq_qualified_new (best : List (ℕ × FilterEntry))
    (row : ℕ × String × Option String) (q : ℚ) (r : Json)
    (h : rowParsed row.2.2 = some (q, r)) (hge : mkRat 6 10 ≤ q)
    (hfind : dictFind best row.1 = none) :
    filterStep best row = dictUpsert row.1 ⟨row.1, q, r⟩ best := by
  simp only [filterStep, h, hfind, if_pos hge]

/-- Case equation: a qualifying row for a key already present replaces the
stored entry exactly when the new score is strictly greater. -/
theorem filterStep_eq_qualified_old (best : List (ℕ × FilterEntry))
    (row : ℕ × String × Option String) (q : ℚ) (r : Json) (old : FilterEntry)
    (h : rowParsed row.2.2 = some (q, r)) (hge : mkRat 6 10 ≤ q)
    (hfind : dictFind best row.1 = some old) :
    filterStep best row
      = if old.match_score < q then dictUpsert row.1 ⟨row.1, q, r⟩ best
        else best := by
  simp only [filterStep, h, hfind, if_pos hge]

/-- Case equation: a row below the threshold leaves the dictionary
unchanged. -/
theorem filterStep_eq_below (best : List (ℕ × FilterEntry))
    (row : ℕ × String × Option String) (q : ℚ) (r : Json)
    (h : rowParsed row.2.2 = some (q, r)) (hge : ¬ mkRat 6 10 ≤ q) :
    filterStep best row = best := by
  simp only [filterStep, h, if_neg hge]

/-- One filter step keeps the dictionary keys distinct. -/
theorem filterStep_keys_nodup (best : List (ℕ × FilterEntry))
    (row : ℕ × String × Option String) (h : (best.map Prod.fst).Nodup) :
    ((filterStep best row).map Prod.fst).Nodup := by
  cases hpr : rowParsed row.2.2 with
  | none => rw [filterStep_eq_none best row hpr]; exact h
  | some pr =>
    obtain ⟨q, r⟩ := pr
    by_cases hge : mkRat 6 10 ≤ q
    · cases hfind : dictFind best row.1 with
      | none =>
        rw [filterStep_eq_qualified_new best row q r hpr hge hfind]
        exact dictUpsert_keys_nodup _ _ _ h
      | some old =>
        rw [filterStep_eq_qualified_old best row q r old hpr hge hfind]
        by_cases hlt : old.match_score < q
        · rw [if_pos hlt]
          exact dictUpsert_keys_nodup _ _ _ h
        · rw [if_neg hlt]
          exact h
    · rw [filterStep_eq_below best row q r hpr hge]
      exact h

/-- One filter step keeps every stored entry's `cv_id` equal to its key. -/
theorem filterStep_consistent (best : List (ℕ × FilterEntry))
    (row : ℕ × String × Option String) (h : ∀ p ∈ best, p.2.cv_id = p.1) :
    ∀ p ∈ filterStep best row, p.2.cv_id = p.1 := by
  cases hpr : rowParsed row.2.2 with
  | none => rw [filterStep_eq_none best row hpr]; exact h
  | some pr =>
    obtain ⟨q, r⟩ := pr
    by_cases hge : mkRat 6 10 ≤ q
    · cases hfind : dictFind best row.1 with
      | none =>
        rw [filterStep_eq_qualified_new best row q r hpr hge hfind]
        exact dictUpsert_consistent row.1 ⟨row.1, q, r⟩ rfl best h
      | some old =>
        rw [filterStep_eq_qualified_old best row q r old hpr hge hfind]
        by_cases hlt : old.match_score < q
        · rw [if_pos hlt]
          exact dictUpsert_consistent row.1 ⟨row.1, q, r⟩ rfl best h
        · rw [if_neg hlt]
          exact h
    · rw [filterStep_eq_below best row q r hpr hge]
      exact h

/-- One filter step never loses the fact that some key already holds an
entry with at least a given score (it can only replace it by a better one). -/
theorem filterStep_preserves_found (k : ℕ) (q0 : ℚ)
    (best : List (ℕ × FilterEntry)) (row : ℕ × String × Option String)
    (h : ∃ e, dictFind best k = some e ∧ q0 ≤ e.match_score) :
    ∃ e, dictFind (filterStep best row) k = some e ∧ q0 ≤ e.match_score := by
  rcases h with ⟨e, hfind, hq⟩
  cases hpr : rowParsed row.2.2 with
  | none => exact ⟨e, by rw [filterStep_eq_none best row hpr]; exact hfind, hq⟩
  | some pr =>
    obtain ⟨q, r⟩ := pr
    by_cases hge : mkRat 6 10 ≤ q
    · by_cases hk : row.1 = k
      · subst hk
        rw [filterStep_eq_qualified_old best row q r e hpr hge hfind]
        by_cases hlt : e.match_score < q
        · rw [if_pos hlt]
          exact ⟨⟨row.1, q, r⟩, dictFind_upsert_self _ _ _,
            le_trans hq (le_of_lt hlt)⟩
        · rw [if_neg hlt]
          exact ⟨e, hfind, hq⟩
      · cases hcur : dictFind best row.1 with
        | none =>
          rw [filterStep_eq_qualified_new best row q r hpr hge hcur]
          exact ⟨e, (dictFind_upsert_other _ _ _ hk _).trans hfind, hq⟩
        | some old =>
          rw [filterStep_eq_qualified_old best row q r old hpr hge hcur]
          by_cases hlt : old.match_score < q
          · rw [if_pos hlt]
            exact ⟨e, (dictFind_upsert_other _ _ _ hk _).trans hfind, hq⟩
          · rw [if_neg hlt]
            exact ⟨e, hfind, hq⟩
    · rw [filterStep_eq_below best row q r hpr hge]
      exact ⟨e, hfind, hq⟩

/-- Processing a qualifying row leaves the dictionary holding, at that row's
key, an entry scoring at least the row's score. -/
theorem filterStep_establishes (best : List (ℕ × FilterEntry))
    (row : ℕ × String × Option String) (q : ℚ) (r : Json)
    (hq : rowParsed row.2.2 = some (q, r)) (hge : mkRat 6 10 ≤ q) :
    ∃ e, dictFind (filterStep best row) row.1 = some e ∧ q ≤ e.match_score := by
  cases hcur : dictFind best row.1 with
  | none =>
    rw [filterStep_eq_qualified_new best row q r hq hge hcur]
    exact ⟨⟨row.1, q, r⟩, dictFind_upsert_self _ _ _, le_refl q⟩
  | some old =>
    rw [filterStep_eq_qualified_old best row q r old hq hge hcur]
    by_cases hlt : old.match_score < q
    · rw [if_pos hlt]
      exact ⟨⟨row.1, q, r⟩, dictFind_upsert_self _ _ _, le_refl q⟩
    · rw [if_neg hlt]
      exact ⟨old, hcur, le_of_not_lt hlt⟩

/-- The filter fold keeps the dictionary keys distinct. -/
theorem foldl_filterStep_keys_nodup :
    ∀ (rows : List (ℕ × String × Option String))
      (d : List (ℕ × FilterEntry)), (d.map Prod.fst).Nodup →
      ((rows.foldl filterStep d).map Prod.fst).Nodup
  | [], _, h => h
  | row :: rows, d, h =>
    foldl_filterStep_keys_nodup rows _ (filterStep_keys_nodup d row h)

/-- The filter fold keeps every stored entry's `cv_id` equal to its key. -/
theorem foldl_filterStep_consistent :
    ∀ (rows : List (ℕ × String × Option String))
      (d : List (ℕ × FilterEntry)), (∀ p ∈ d, p.2.cv_id = p.1) →
      ∀ p ∈ rows.foldl filterStep d, p.2.cv_id = p.1
  | [], _, h => h
  | row :: rows, d, h =>
    foldl_filterStep_consistent rows _ (filterStep_consistent d row h)

/-- The filter fold never loses an established entry-with-score fact. -/
theorem foldl_filterStep_preserves_found (k : ℕ) (q0 : ℚ) :
    ∀ (rows : List (ℕ × String × Option String))
      (d : List (ℕ × FilterEntry)),
      (∃ e, dictFind d k = some e ∧ q0 ≤ e.match_score) →
      ∃ e, dictFind (rows.foldl filterStep d) k = some e ∧ q0 ≤ e.match_score
  | [], _, h => h
  | row :: rows, d, h =>
    foldl_filterStep_preserves_found k q0 rows _
      (filterStep_preserves_found k q0 d row h)

/-- Translate a successful dictionary lookup into list membership together
with the key fact. -/
theorem dictFind_mem (d : List (ℕ × FilterEntry)) (k : ℕ) (e : FilterEntry)
    (h : dictFind d k = some e) : ∃ p ∈ d, p.1 = k ∧ p.2 = e := by
  unfold dictFind at h
  cases hf : d.find? (fun p => p.1 = k) with
  | none => rw [hf] at h; cases h
  | some p =>
    rw [hf] at h
    cases h
    have hmem := List.mem_of_find?_eq_some hf
    have hkey := List.find?_some hf
    simp only [decide_eq_true_eq] at hkey
    exact ⟨p, hmem, hkey, rfl⟩

/-- C9 (amended): the filter pipeline's result holds at most one entry per
candidate identity, and every qualifying row is represented by an entry for
its candidate with at least that row's score (so on duplicates the highest
score wins); the CV-analysis aggregation, by contrast, performs no
deduplication at all — its ranked output is a permutation of every collected
Match outcome, so per-candidate uniqueness there relies on the candidate
pool listing each candidate once. -/
theorem C9_dedup_only_in_filter_pipeline :
    (∀ rows : List (ℕ × String × Option String),
      ((filter_candidates rows).map (fun e => e.cv_id)).Nodup)
    ∧ (∀ (rows : List (ℕ × String × Option String))
        (row : ℕ × String × Option String), row ∈ rows →
        ∀ (q : ℚ) (r : Json), rowParsed row.2.2 = some (q, r) →
        (0.6 : ℚ) ≤ q →
        ∃ e ∈ filter_candidates rows, e.cv_id = row.1 ∧ q ≤ e.match_score)
    ∧ (∀ rs : List MatchRec, (cvRank rs).Perm rs) := by
  refine ⟨?_, ?_, fun rs => pySortDescBy_perm _ rs⟩
  · intro rows
    have hkeys := foldl_filterStep_keys_nodup rows [] (by simp)
    have hcons := foldl_filterStep_consistent rows [] (by simp)
    set d := rows.foldl filterStep [] with hd
    have hmapeq : (d.map (fun p => p.2)).map (fun e => e.cv_id)
        = d.map Prod.fst := by
      rw [List.map_map]
      exact List.map_congr_left (fun p hp => hcons p hp)
    have hperm : List.Perm ((filter_candidates rows).map (fun e => e.cv_id))
        ((d.map (fun p => p.2)).map (fun e => e.cv_id)) := by
      unfold filter_candidates
      exact (pySortDescBy_perm _ _).map _
    rw [hmapeq] at hperm
    exact hperm.nodup_iff.mpr hkeys
  · intro rows row hmem q r hpr hge
    rcases List.append_of_mem hmem with ⟨s, t, rfl⟩
    have hge' : mkRat 6 10 ≤ q := by rw [mkRat_sixTenths]; exact hge
    have hfold : (s ++ row :: t).foldl filterStep []
        = t.foldl filterStep (filterStep (s.foldl filterStep []) row) := by
      rw [List.foldl_append]
      rfl
    have hstep := filterStep_establishes (s.foldl filterStep []) row q r hpr hge'
    have hfinal := foldl_filterStep_preserves_found row.1 q t _ hstep
    rcases hfinal with ⟨e, hfind, hq⟩
    have hcons := foldl_filterStep_consistent (s ++ row :: t) [] (by simp)
    rcases dictFind_mem _ _ _ hfind with ⟨p, hp, hpk, hpe⟩
    have hpd : p ∈ (s ++ row :: t).foldl filterStep [] := by
      rw [hfold]
      exact hp
    refine ⟨e, ?_, ?_, hq⟩
    · unfold filter_candidates
      have : e ∈ ((s ++ row :: t).foldl filterStep []).map (fun p => p.2) :=
        List.mem_map.mpr ⟨p, hpd, hpe⟩
      exact ((pySortDescBy_perm _ _).mem_iff).mpr this
    · rw [← hpe, hcons p hpd, hpk]

/-- C9 witness: the theorem applied to two qualifying rows for the same CV
identity — the output still has distinct identities and an entry with at
least the rows' score. -/
theorem C9_dedup_only_in_filter_pipeline_witness :
    ((filter_candidates [(3, "txt", some rawF06), (3, "txt", some rawF06)]).map
        (fun e => e.cv_id)).Nodup
    ∧ ∃ e ∈ filter_candidates [(3, "txt", some rawF06), (3, "txt", some rawF06)],
        e.cv_id = 3 ∧ mkRat 6 10 ≤ e.match_score := by
  refine ⟨C9_dedup_only_in_filter_pipeline.1 _, ?_⟩
  exact C9_dedup_only_in_filter_pipeline.2.1 _ (3, "txt", some rawF06)
    (List.mem_cons_self _ _) (mkRat 6 10) (Json.str "ok") rfl
    (by rw [mkRat_sixTenths])

/-- C9 counterexample: the CV-analysis aggregation applied to two Match
outcomes for the same candidate identity keeps both entries — it neither
deduplicates nor keeps only the highest score, contradicting the claim for
that pipeline. -/
theorem C9_counterexample :
    (cvRank [⟨1, mkRat 9 10, .str "", "t0"⟩, ⟨1, mkRat 8 10, .str "", "t0"⟩]).map
        (fun m => (m.job_id, m.match_score))
      = [(1, mkRat 9 10), (1, mkRat 8 10)] := rfl
